import Mathlib

/-!
Shallow embedding of the quorum-consensus reliable-broadcast engine of the
ephemera repository, translated from
src/broadcast/src/protocols/implementations/quorum_consensus/quorum_consensus.rs,
and of the peer-discovery membership snapshots, translated from
src/node/src/network/libp2p/behaviours/peer_discovery/membership.rs.

Modelling conventions:
- Rust HashSet<String> is modelled as a duplicate-free List String built with
  hsInsert (insert-if-absent); the code only uses insert, contains and len.
- The lru crate LruCache is modelled as an association list ordered from most
  recently used to least recently used; put inserts or replaces at the front
  and truncates to the capacity, which is exactly the eviction behaviour of
  LruCache::put and get_or_insert_mut.  Lookups promote the entry to the
  front, as get and get_mut do; every exit path of the engine functions stores
  the (possibly unchanged) context back with Lru.put, which is the immutable
  rendering of get_mut returning a reference into the cache.
- Timestamps (ConsensusTimestamp, the Timestamp field of RbMsg) are diagnostic
  wall-clock values never read by the engine; they are omitted from the model.
- The Quorum trait object and the QuorumConsensusCallBack trait object are
  injected collaborators; they are modelled as pure functions carried in
  Params.  PeerDiscovery.peer_addresses() is modelled as the constant list
  Params.peerAddresses.
- Vec<u8> payloads are modelled as List Nat.
-/

/-- Model of HashSet insert: add the element if it is not already present. -/
def hsInsert (s : List String) (x : String) : List String :=
  if x ∈ s then s else x :: s

/-- An LRU cache, modelled as an association list ordered from most recently
used (head) to least recently used (last). -/
abbrev Lru (κ α : Type) := List (κ × α)

/-- Association lookup, as LruCache peek would return the stored value. -/
def Lru.lookup {κ α : Type} [DecidableEq κ] (l : Lru κ α) (k : κ) : Option α :=
  match l with
  | [] => none
  | (k', v) :: rest => if k' = k then some v else Lru.lookup rest k

/-- Remove every entry whose key is k. -/
def Lru.eraseK {κ α : Type} [DecidableEq κ] (l : Lru κ α) (k : κ) : Lru κ α :=
  match l with
  | [] => []
  | (k', v) :: rest =>
    if k' = k then Lru.eraseK rest k else (k', v) :: Lru.eraseK rest k

/-- LruCache::put: store (k, v) as the most recently used entry, replacing any
previous entry for k, and evict from the least recently used end down to the
capacity. -/
def Lru.put {κ α : Type} [DecidableEq κ] (cap : Nat) (l : Lru κ α) (k : κ) (v : α) :
    Lru κ α :=
  ((k, v) :: Lru.eraseK l k).take cap

/-- ConsensusContext from quorum_consensus.rs (the ConsensusTimestamp field is
omitted: it is diagnostic only and never read). -/
structure ConsensusContext where
  id : String
  original_sender : Bool
  local_address : String
  peers : List String
  prepare : List String
  commit : List String
  prepared : Bool
  committed : Bool
deriving DecidableEq

/-- ConsensusContext::new: fresh context; prepare, commit, prepared, committed
come from Default. -/
def ConsensusContext.new (id : String) (original_sender : Bool)
    (local_address : String) (peers : List String) : ConsensusContext :=
  { id := id, original_sender := original_sender, local_address := local_address,
    peers := peers, prepare := [], commit := [], prepared := false,
    committed := false }

/-- ConsensusContext::add_prepare. -/
def ConsensusContext.add_prepare (c : ConsensusContext) (peer : String) :
    ConsensusContext :=
  { c with prepare := hsInsert c.prepare peer }

/-- ConsensusContext::add_commit. -/
def ConsensusContext.add_commit (c : ConsensusContext) (peer : String) :
    ConsensusContext :=
  { c with commit := hsInsert c.commit peer }

/-- The inner one_of of an RbMsg (rb_msg::ReliableBroadcast), reconstructed
from its use in quorum_consensus.rs and the frame list of the protocol. -/
inductive ReliableBroadcast where
  | PrePrepare (payload : List Nat)
  | Prepare (payload : List Nat)
  | Commit
  | Ack
deriving DecidableEq

/-- RbMsg as used by quorum_consensus.rs: id, node_id and the optional inner
message (the advisory timestamp is omitted). -/
structure RbMsg where
  id : String
  node_id : String
  reliable_broadcast : Option ReliableBroadcast
deriving DecidableEq

/-- Response kind, reconstructed from its use in quorum_consensus.rs (only
BROADCAST is produced there) and the dispatcher description. -/
inductive Kind where
  | BROADCAST
  | REPLY
  | DROP
deriving DecidableEq

/-- ProtocolResponse as built by broadcast_reply. -/
structure ProtocolResponse where
  kind : Kind
  peers : List String
  protocol_reply : RbMsg
deriving DecidableEq

/-- QuorumProtocolError from quorum_consensus.rs; the anyhow cause of
CallbackError is modelled as a String. -/
inductive QuorumProtocolError where
  | UnknownBroadcast (s : String)
  | CallbackError (s : String)
deriving DecidableEq

/-- broadcast_reply from quorum_consensus.rs (timestamp omitted). -/
def broadcast_reply (id node_id : String) (peers : List String)
    (msg : ReliableBroadcast) :
    Except QuorumProtocolError ProtocolResponse :=
  .ok { kind := Kind.BROADCAST, peers := peers,
        protocol_reply :=
          { id := id, node_id := node_id, reliable_broadcast := some msg } }

/-- prepare_reply from quorum_consensus.rs. -/
def prepare_reply (id node_id : String) (payload : List Nat)
    (peers : List String) : Except QuorumProtocolError ProtocolResponse :=
  broadcast_reply id node_id peers (ReliableBroadcast.Prepare payload)

/-- commit_reply from quorum_consensus.rs. -/
def commit_reply (id node_id : String) (peers : List String) :
    Except QuorumProtocolError ProtocolResponse :=
  broadcast_reply id node_id peers ReliableBroadcast.Commit

/-- ack from quorum_consensus.rs: a broadcast_reply with an empty peer list. -/
def ack_reply (id node_id : String) : Except QuorumProtocolError ProtocolResponse :=
  broadcast_reply id node_id [] ReliableBroadcast.Ack

/-- The five hook points of QuorumConsensusCallBack, modelled as pure
functions; an error return is the anyhow error propagated as CallbackError. -/
structure Callbacks where
  pre_prepare :
    String → String → List Nat → ConsensusContext → Except String (Option (List Nat))
  prepare :
    String → String → List Nat → ConsensusContext → Except String (Option (List Nat))
  prepared : ConsensusContext → Except String Unit
  commit : String → String → ConsensusContext → Except String Unit
  committed : ConsensusContext → Except String Unit

/-- The injected collaborators of QuorumConsensusBroadcastProtocol: the node
id from Settings, the PeerDiscovery peer_addresses list, the two Quorum
predicates and the callback object. -/
structure Params where
  nodeId : String
  peerAddresses : List String
  prepareThreshold : Nat → Bool
  commitThreshold : Nat → Bool
  callback : Callbacks

/-- The mutable state of the engine: the contexts LruCache, created in
QuorumConsensusBroadcastProtocol::new with capacity 1000. -/
abbrev Ctxs := Lru String ConsensusContext

/-- process_pre_prepare: build a fresh context with original_sender = true,
vote prepare locally, run the pre_prepare hook (on error nothing is stored),
store the context and broadcast a Prepare. -/
def process_pre_prepare (P : Params) (l : Ctxs) (msg_id sender : String)
    (payload : List Nat) :
    Ctxs × Except QuorumProtocolError ProtocolResponse :=
  let ctx := (ConsensusContext.new msg_id true P.nodeId
      P.peerAddresses).add_prepare P.nodeId
  match P.callback.pre_prepare msg_id sender payload ctx with
  | .error e => (l, .error (QuorumProtocolError.CallbackError e))
  | .ok res =>
    let payload := res.getD payload
    (Lru.put 1000 l msg_id ctx, prepare_reply msg_id P.nodeId payload ctx.peers)

/-- The context get_or_insert_mut starts from in process_prepare: the stored
context when one exists, otherwise a fresh non-original context. -/
def lookup_or_new (P : Params) (l : Ctxs) (msg_id : String) : ConsensusContext :=
  match Lru.lookup l msg_id with
  | some c => c
  | none => ConsensusContext.new msg_id false P.nodeId P.peerAddresses

/-- process_prepare: get_or_insert_mut the context; if already prepared reply
Ack; record the sender vote; run the prepare hook (on error the sender vote
stays recorded); if the local node has not voted yet, vote and broadcast a
Prepare; otherwise on prepare quorum mark prepared, run the prepared hook and,
for the original sender, vote commit and broadcast a Commit; otherwise Ack. -/
def process_prepare (P : Params) (l : Ctxs) (msg_id sender : String)
    (payload : List Nat) :
    Ctxs × Except QuorumProtocolError ProtocolResponse :=
  let ctx0 := lookup_or_new P l msg_id
  if ctx0.prepared then
    (Lru.put 1000 l msg_id ctx0, ack_reply msg_id P.nodeId)
  else
    let ctx1 := ctx0.add_prepare sender
    match P.callback.prepare msg_id sender payload ctx1 with
    | .error e =>
      (Lru.put 1000 l msg_id ctx1, .error (QuorumProtocolError.CallbackError e))
    | .ok res =>
      let payload := res.getD payload
      if P.nodeId ∈ ctx1.prepare then
        if P.prepareThreshold ctx1.prepare.length then
          let ctx2 := { ctx1 with prepared := true }
          match P.callback.prepared ctx2 with
          | .error e =>
            (Lru.put 1000 l msg_id ctx2,
             .error (QuorumProtocolError.CallbackError e))
          | .ok _ =>
            if ctx2.original_sender then
              let ctx3 := ctx2.add_commit P.nodeId
              (Lru.put 1000 l msg_id ctx3, commit_reply msg_id P.nodeId ctx3.peers)
            else
              (Lru.put 1000 l msg_id ctx2, ack_reply msg_id P.nodeId)
        else
          (Lru.put 1000 l msg_id ctx1, ack_reply msg_id P.nodeId)
      else
        let ctx2 := ctx1.add_prepare P.nodeId
        (Lru.put 1000 l msg_id ctx2,
         prepare_reply msg_id P.nodeId payload ctx2.peers)

/-- process_commit: look the context up (absent gives UnknownBroadcast); if
already committed reply Ack; record the origin vote; if the local node has not
voted commit yet, vote and broadcast a Commit; run the commit hook; on
prepared plus commit quorum mark committed and run the committed hook; Ack. -/
def process_commit (P : Params) (l : Ctxs) (msg_id origin : String) :
    Ctxs × Except QuorumProtocolError ProtocolResponse :=
  match Lru.lookup l msg_id with
  | none => (l, .error (QuorumProtocolError.UnknownBroadcast msg_id))
  | some ctx0 =>
    if ctx0.committed then
      (Lru.put 1000 l msg_id ctx0, ack_reply msg_id P.nodeId)
    else
      let ctx1 := ctx0.add_commit origin
      if P.nodeId ∈ ctx1.commit then
        match P.callback.commit msg_id origin ctx1 with
        | .error e =>
          (Lru.put 1000 l msg_id ctx1,
           .error (QuorumProtocolError.CallbackError e))
        | .ok _ =>
          if ctx1.prepared && P.commitThreshold ctx1.commit.length then
            let ctx2 := { ctx1 with committed := true }
            match P.callback.committed ctx2 with
            | .error e =>
              (Lru.put 1000 l msg_id ctx2,
               .error (QuorumProtocolError.CallbackError e))
            | .ok _ =>
              (Lru.put 1000 l msg_id ctx2, ack_reply msg_id P.nodeId)
          else
            (Lru.put 1000 l msg_id ctx1, ack_reply msg_id P.nodeId)
      else
        let ctx2 := ctx1.add_commit P.nodeId
        (Lru.put 1000 l msg_id ctx2, commit_reply msg_id P.nodeId ctx2.peers)

/-- handle_message: route on the inner variant; a missing inner message gives
UnknownBroadcast("Unknown broadcast"); Ack falls into the catch-all arm, which
logs and returns UnknownBroadcast(rb_id). -/
def handle_message (P : Params) (l : Ctxs) (msg : RbMsg) :
    Ctxs × Except QuorumProtocolError ProtocolResponse :=
  match msg.reliable_broadcast with
  | none => (l, .error (QuorumProtocolError.UnknownBroadcast "Unknown broadcast"))
  | some rb =>
    match rb with
    | ReliableBroadcast.PrePrepare payload =>
      process_pre_prepare P l msg.id msg.node_id payload
    | ReliableBroadcast.Prepare payload =>
      process_prepare P l msg.id msg.node_id payload
    | ReliableBroadcast.Commit => process_commit P l msg.id msg.node_id
    | ReliableBroadcast.Ack =>
      (l, .error (QuorumProtocolError.UnknownBroadcast msg.id))

/-- Run a list of inbound frames through handle_message, threading the
contexts state. -/
def run_msgs (P : Params) (l : Ctxs) : List RbMsg → Ctxs
  | [] => l
  | m :: rest => run_msgs P (handle_message P l m).1 rest

/-- The list of results produced while running a list of inbound frames. -/
def run_outputs (P : Params) (l : Ctxs) :
    List RbMsg → List (Except QuorumProtocolError ProtocolResponse)
  | [] => []
  | m :: rest =>
    (handle_message P l m).2 :: run_outputs P (handle_message P l m).1 rest

/-- A contexts state is reachable when some sequence of inbound frames leads
to it from the empty cache of QuorumConsensusBroadcastProtocol::new. -/
def Reachable (P : Params) (l : Ctxs) : Prop :=
  ∃ msgs, run_msgs P [] msgs = l

/-- A result is an outbound PREPARE broadcast for the given id. -/
def is_prepare_bcast (id : String)
    (r : Except QuorumProtocolError ProtocolResponse) : Bool :=
  match r with
  | .ok resp =>
    decide (resp.kind = Kind.BROADCAST) && decide (resp.protocol_reply.id = id) &&
      (match resp.protocol_reply.reliable_broadcast with
       | some (ReliableBroadcast.Prepare _) => true
       | _ => false)
  | .error _ => false

/-- A result is an outbound COMMIT broadcast for the given id. -/
def is_commit_bcast (id : String)
    (r : Except QuorumProtocolError ProtocolResponse) : Bool :=
  match r with
  | .ok resp =>
    decide (resp.kind = Kind.BROADCAST) && decide (resp.protocol_reply.id = id) &&
      (match resp.protocol_reply.reliable_broadcast with
       | some ReliableBroadcast.Commit => true
       | _ => false)
  | .error _ => false

/-- The per-context invariant checked by the claims: committed implies
prepared, and prepared implies the prepare quorum predicate held on the
recorded prepare votes. -/
def CtxOk (P : Params) (c : ConsensusContext) : Prop :=
  (c.committed = true → c.prepared = true) ∧
  (c.prepared = true → P.prepareThreshold c.prepare.length = true)

/-- The engine invariant: the cache respects its capacity and every stored
context satisfies CtxOk. -/
def EngineInv (P : Params) (l : Ctxs) : Prop :=
  l.length ≤ 1000 ∧ ∀ e ∈ l, CtxOk P e.2

namespace membership

/-- Membership from membership.rs; PeerId and Multiaddr are opaque and are
modelled as Nat. -/
structure Membership where
  local_peer_id : Nat
  all_members : List (Nat × Nat)
  active_members : List Nat
deriving DecidableEq

/-- Membership::new; PeerId::random() is modelled by taking the fresh peer id
as an argument. -/
def Membership.new (rnd : Nat) (all_members : List (Nat × Nat)) : Membership :=
  { local_peer_id := rnd, all_members := all_members, active_members := [] }

/-- Memberships from membership.rs: the LruCache of snapshots (capacity 1000),
the u64 snapshot counter, and the pending membership. -/
structure Memberships where
  snapshots : Lru Nat Membership
  current : Nat
  pending_membership : Option Membership

/-- Memberships::new: snapshot 0 is the default membership, current = 0. -/
def Memberships.new (rnd : Nat) : Memberships :=
  { snapshots := Lru.put 1000 [] 0 (Membership.new rnd []),
    current := 0,
    pending_membership := none }

/-- The u64 subtraction a - b as Rust performs it, made total by returning
none exactly when it underflows (the unchecked operation panics under
overflow checks and wraps in release builds). -/
def u64_sub_checked (a b : Nat) : Option Nat :=
  if b ≤ a then some (a - b) else none

/-- Memberships::previous: self.snapshots.get(&(self.current - 1)).  The
outer Option is none exactly when the subtraction self.current - 1
underflows; otherwise it carries the cache lookup result. -/
def Memberships.previous (m : Memberships) : Option (Option Membership) :=
  (u64_sub_checked m.current 1).map fun i => Lru.lookup m.snapshots i

/-- Memberships::update: advance the counter and store the new snapshot. -/
def Memberships.update (ms : Memberships) (m : Membership) : Memberships :=
  { ms with current := ms.current + 1,
            snapshots := Lru.put 1000 ms.snapshots (ms.current + 1) m }

end membership

/-- Callbacks that always succeed and keep the payload unchanged. -/
def ok_callbacks : Callbacks :=
  { pre_prepare := fun _ _ _ _ => .ok none,
    prepare := fun _ _ _ _ => .ok none,
    prepared := fun _ => .ok (),
    commit := fun _ _ _ => .ok (),
    committed := fun _ => .ok () }

/-- Callbacks whose prepare hook always fails, as in the application-rejects
scenario. -/
def reject_callbacks : Callbacks :=
  { ok_callbacks with prepare := fun _ _ _ _ => .error "rejected" }

/-- A concrete engine environment: node a in a cluster with peers b and c,
quorum threshold 2 for both phases. -/
def exP : Params :=
  { nodeId := "a", peerAddresses := ["b", "c"],
    prepareThreshold := fun n => decide (2 ≤ n),
    commitThreshold := fun n => decide (2 ≤ n),
    callback := ok_callbacks }

/-- The same environment with the rejecting prepare hook. -/
def exPbad : Params := { exP with callback := reject_callbacks }

/-- A PrePrepare frame. -/
def pp_frame (id node : String) (pl : List Nat) : RbMsg :=
  { id := id, node_id := node, reliable_broadcast := some (ReliableBroadcast.PrePrepare pl) }

/-- A Prepare frame. -/
def prep_frame (id node : String) (pl : List Nat) : RbMsg :=
  { id := id, node_id := node, reliable_broadcast := some (ReliableBroadcast.Prepare pl) }

/-- A Commit frame. -/
def commit_frame (id node : String) : RbMsg :=
  { id := id, node_id := node, reliable_broadcast := some ReliableBroadcast.Commit }

/-- An Ack frame. -/
def ack_frame (id node : String) : RbMsg :=
  { id := id, node_id := node, reliable_broadcast := some ReliableBroadcast.Ack }

/-- A full happy-path trace at node a: it proposes m1, receives a prepare and
then a commit from b, reaching the committed state. -/
def exMsgs : List RbMsg :=
  [pp_frame "m1" "a" [7], prep_frame "m1" "b" [7], commit_frame "m1" "b"]

/-- The contexts state after the happy-path trace. -/
def exRun : Ctxs := run_msgs exP [] exMsgs

/-- The context the happy-path trace is expected to leave behind: prepared and
committed, with both vote sets equal to the votes of a and b. -/
def exCtx : ConsensusContext :=
  { id := "m1", original_sender := true, local_address := "a",
    peers := ["b", "c"], prepare := ["b", "a"], commit := ["b", "a"],
    prepared := true, committed := true }

/-- The state after a single inbound Prepare for m1 from b at node a. -/
def cexRun : Ctxs := run_msgs exP [] [prep_frame "m1" "b" []]

/-- The context that single Prepare leaves behind: two prepare votes (enough
for the quorum predicate of exP) but prepared still false, because the
local-vote broadcast path returns before the quorum check. -/
def cexCtx : ConsensusContext :=
  { id := "m1", original_sender := false, local_address := "a",
    peers := ["b", "c"], prepare := ["a", "b"], commit := [],
    prepared := false, committed := false }

/-- The state after a single inbound Prepare for m1 from z, a sender that is
neither in the peers snapshot nor the local node. -/
def cexRunNonMember : Ctxs := run_msgs exP [] [prep_frame "m1" "z" []]

/-- The context that Prepare from the non-member z leaves behind: the vote of
z is recorded. -/
def cexCtxNonMember : ConsensusContext :=
  { id := "m1", original_sender := false, local_address := "a",
    peers := ["b", "c"], prepare := ["a", "z"], commit := [],
    prepared := false, committed := false }

/-- A full cache: 1000 entries (keys need not be distinct for the eviction
lemma; lookups for any other key miss). -/
def bigCtxs : Ctxs :=
  List.replicate 1000 ("x", ConsensusContext.new "x" false "a" [])

/-- A freshly created non-original context for m1, as get_or_insert_mut would
create it at node a. -/
def exPre : ConsensusContext := ConsensusContext.new "m1" false "a" ["b", "c"]

/-- The element just inserted is in the set. -/
theorem hsInsert_mem_self (s : List String) (x : String) : x ∈ hsInsert s x := by
  by_cases h : x ∈ s <;> simp [hsInsert, h]

/-- Insertion preserves the existing elements. -/
theorem hsInsert_mem_of_mem {s : List String} {y : String} (x : String)
    (h : y ∈ s) : y ∈ hsInsert s x := by
  by_cases hx : x ∈ s <;> simp [hsInsert, hx, h]

/-- add_prepare leaves every field except prepare unchanged. -/
@[simp] theorem ConsensusContext.add_prepare_prepare (c : ConsensusContext)
    (x : String) : (c.add_prepare x).prepare = hsInsert c.prepare x := rfl

@[simp] theorem ConsensusContext.add_prepare_commit (c : ConsensusContext)
    (x : String) : (c.add_prepare x).commit = c.commit := rfl

@[simp] theorem ConsensusContext.add_prepare_prepared (c : ConsensusContext)
    (x : String) : (c.add_prepare x).prepared = c.prepared := rfl

@[simp] theorem ConsensusContext.add_prepare_committed (c : ConsensusContext)
    (x : String) : (c.add_prepare x).committed = c.committed := rfl

@[simp] theorem ConsensusContext.add_prepare_peers (c : ConsensusContext)
    (x : String) : (c.add_prepare x).peers = c.peers := rfl

@[simp] theorem ConsensusContext.add_prepare_original (c : ConsensusContext)
    (x : String) : (c.add_prepare x).original_sender = c.original_sender := rfl

/-- add_commit leaves every field except commit unchanged. -/
@[simp] theorem ConsensusContext.add_commit_commit (c : ConsensusContext)
    (x : String) : (c.add_commit x).commit = hsInsert c.commit x := rfl

@[simp] theorem ConsensusContext.add_commit_prepare (c : ConsensusContext)
    (x : String) : (c.add_commit x).prepare = c.prepare := rfl

@[simp] theorem ConsensusContext.add_commit_prepared (c : ConsensusContext)
    (x : String) : (c.add_commit x).prepared = c.prepared := rfl

@[simp] theorem ConsensusContext.add_commit_committed (c : ConsensusContext)
    (x : String) : (c.add_commit x).committed = c.committed := rfl

@[simp] theorem ConsensusContext.add_commit_peers (c : ConsensusContext)
    (x : String) : (c.add_commit x).peers = c.peers := rfl

@[simp] theorem ConsensusContext.add_commit_original (c : ConsensusContext)
    (x : String) : (c.add_commit x).original_sender = c.original_sender := rfl

/-- A successful lookup returns a stored entry. -/
theorem Lru.lookup_mem {κ α : Type} [DecidableEq κ] {l : Lru κ α} {k : κ} {v : α}
    (h : Lru.lookup l k = some v) : (k, v) ∈ l := by
  induction l with
  | nil => simp [Lru.lookup] at h
  | cons e rest ih =>
    obtain ⟨k', v'⟩ := e
    by_cases hk : k' = k
    · subst hk
      simp [Lru.lookup] at h
      exact h ▸ List.mem_cons_self _ _
    · simp [Lru.lookup, hk] at h
      exact List.mem_cons_of_mem _ (ih h)

/-- eraseK only drops entries. -/
theorem Lru.mem_eraseK {κ α : Type} [DecidableEq κ] {l : Lru κ α} {k : κ}
    {e : κ × α} (h : e ∈ Lru.eraseK l k) : e ∈ l := by
  induction l with
  | nil => simp [Lru.eraseK] at h
  | cons f rest ih =>
    obtain ⟨k', v'⟩ := f
    by_cases hk : k' = k
    · simp only [Lru.eraseK, if_pos hk] at h
      exact List.mem_cons_of_mem _ (ih h)
    · simp only [Lru.eraseK, if_neg hk, List.mem_cons] at h
      rcases h with h | h
      · simp [h]
      · exact List.mem_cons_of_mem _ (ih h)

/-- eraseK removes every entry with the erased key. -/
theorem Lru.ne_of_mem_eraseK {κ α : Type} [DecidableEq κ] {l : Lru κ α} {k : κ}
    {e : κ × α} (h : e ∈ Lru.eraseK l k) : e.1 ≠ k := by
  induction l with
  | nil => simp [Lru.eraseK] at h
  | cons f rest ih =>
    obtain ⟨k', v'⟩ := f
    by_cases hk : k' = k
    · simp only [Lru.eraseK, if_pos hk] at h
      exact ih h
    · simp only [Lru.eraseK, if_neg hk, List.mem_cons] at h
      rcases h with rfl | h
      · simpa using hk
      · exact ih h

/-- Erasing a key that no entry carries is the identity. -/
theorem Lru.eraseK_eq_self {κ α : Type} [DecidableEq κ] {l : Lru κ α} {k : κ}
    (h : ∀ e ∈ l, e.1 ≠ k) : Lru.eraseK l k = l := by
  induction l with
  | nil => rfl
  | cons f rest ih =>
    have hf : f.1 ≠ k := h f (List.mem_cons_self _ _)
    obtain ⟨k', v'⟩ := f
    simp only [Lru.eraseK, if_neg hf]
    rw [ih fun e he => h e (List.mem_cons_of_mem _ he)]

/-- Every entry of a put cache is the new entry or an old one. -/
theorem Lru.mem_put {κ α : Type} [DecidableEq κ] {cap : Nat} {l : Lru κ α}
    {k : κ} {v : α} {e : κ × α} (h : e ∈ Lru.put cap l k v) :
    e = (k, v) ∨ e ∈ l := by
  have h' : e ∈ (k, v) :: Lru.eraseK l k := List.take_subset _ _ h
  rcases List.mem_cons.mp h' with h'' | h''
  · exact Or.inl h''
  · exact Or.inr (Lru.mem_eraseK h'')

/-- put keeps the cache within its capacity. -/
theorem Lru.length_put_le {κ α : Type} [DecidableEq κ] (cap : Nat) (l : Lru κ α)
    (k : κ) (v : α) : (Lru.put cap l k v).length ≤ cap := by
  simp [Lru.put, List.length_take]

/-- Looking the stored key up right after a put finds the stored value. -/
theorem Lru.lookup_put_self {κ α : Type} [DecidableEq κ] {cap : Nat}
    (hc : 0 < cap) (l : Lru κ α) (k : κ) (v : α) :
    Lru.lookup (Lru.put cap l k v) k = some v := by
  obtain ⟨n, rfl⟩ : ∃ n, cap = n + 1 := ⟨cap - 1, by omega⟩
  simp [Lru.put, List.take_succ_cons, Lru.lookup]

/-- Storing under the same key twice is the same as storing once. -/
theorem Lru.put_put {κ α : Type} [DecidableEq κ] (cap : Nat) (l : Lru κ α)
    (k : κ) (v w : α) :
    Lru.put cap (Lru.put cap l k v) k w = Lru.put cap l k w := by
  cases cap with
  | zero => simp [Lru.put]
  | succ n =>
    have h1 : Lru.put (n + 1) l k v = (k, v) :: (Lru.eraseK l k).take n := by
      simp [Lru.put, List.take_succ_cons]
    have h2 : Lru.eraseK ((k, v) :: (Lru.eraseK l k).take n) k
        = (Lru.eraseK l k).take n := by
      simp only [Lru.eraseK, if_pos rfl]
      exact Lru.eraseK_eq_self fun e he =>
        Lru.ne_of_mem_eraseK (List.take_subset _ _ he)
    rw [Lru.put, h1, h2, Lru.put, List.take_succ_cons, List.take_succ_cons,
      List.take_take]
    simp

/-- Erasing an absent key is the identity. -/
theorem Lru.eraseK_of_lookup_none {κ α : Type} [DecidableEq κ] {l : Lru κ α}
    {k : κ} (h : Lru.lookup l k = none) : Lru.eraseK l k = l := by
  induction l with
  | nil => rfl
  | cons f rest ih =>
    obtain ⟨k', v'⟩ := f
    by_cases hk : k' = k
    · simp [Lru.lookup, hk] at h
    · simp only [Lru.lookup, if_neg hk] at h
      simp only [Lru.eraseK, if_neg hk]
      rw [ih h]

/-- A context whose flags are both clear satisfies the context invariant. -/
theorem ctxok_of_not_flags (P : Params) {c : ConsensusContext}
    (h1 : c.prepared = false) (h2 : c.committed = false) : CtxOk P c := by
  constructor <;> intro hx
  · rw [h2] at hx; exact absurd hx (by simp)
  · rw [h1] at hx; exact absurd hx (by simp)

/-- The context invariant only reads prepare, prepared and committed, so
add_commit preserves it. -/
theorem ctxok_add_commit (P : Params) {c : ConsensusContext} (h : CtxOk P c)
    (y : String) : CtxOk P (c.add_commit y) := h

/-- A non-prepared context is not committed. -/
theorem committed_false_of (P : Params) {c : ConsensusContext} (h : CtxOk P c)
    (hp : c.prepared = false) : c.committed = false := by
  cases hc : c.committed
  · rfl
  · exact absurd (h.1 hc) (by simp [hp])

/-- The empty cache satisfies the engine invariant. -/
theorem enginv_nil (P : Params) : EngineInv P [] := by
  constructor
  · simp
  · intro e he; simp at he

/-- Storing a context that satisfies the context invariant preserves the
engine invariant. -/
theorem enginv_put {P : Params} {l : Ctxs} (h : EngineInv P l)
    {c : ConsensusContext} (hc : CtxOk P c) (k : String) :
    EngineInv P (Lru.put 1000 l k c) := by
  refine ⟨Lru.length_put_le 1000 l k c, fun e he => ?_⟩
  rcases Lru.mem_put he with rfl | he'
  · exact hc
  · exact h.2 e he'

/-- A stored context satisfies the context invariant. -/
theorem ctxok_of_lookup {P : Params} {l : Ctxs} (h : EngineInv P l)
    {k : String} {c : ConsensusContext} (hl : Lru.lookup l k = some c) :
    CtxOk P c :=
  h.2 (k, c) (Lru.lookup_mem hl)

/-- The context process_prepare starts from satisfies the context
invariant. -/
theorem ctxok_lookup_or_new {P : Params} {l : Ctxs} (h : EngineInv P l)
    (k : String) : CtxOk P (lookup_or_new P l k) := by
  unfold lookup_or_new
  cases hl : Lru.lookup l k with
  | none =>
    exact ctxok_of_not_flags P rfl rfl
  | some c =>
    exact ctxok_of_lookup h hl

/-- process_pre_prepare preserves the engine invariant. -/
theorem enginv_process_pre_prepare (P : Params) (l : Ctxs) (id s : String)
    (pl : List Nat) (h : EngineInv P l) :
    EngineInv P (process_pre_prepare P l id s pl).1 := by
  simp only [process_pre_prepare]
  split
  · exact h
  · exact enginv_put h (ctxok_of_not_flags P rfl rfl) id

/-- process_prepare preserves the engine invariant. -/
theorem enginv_process_prepare (P : Params) (l : Ctxs) (id x : String)
    (pl : List Nat) (h : EngineInv P l) :
    EngineInv P (process_prepare P l id x pl).1 := by
  have h0 : CtxOk P (lookup_or_new P l id) := ctxok_lookup_or_new h id
  simp only [process_prepare]
  split
  · exact enginv_put h h0 id
  · rename_i hp
    have hp' : (lookup_or_new P l id).prepared = false := by
      cases hv : (lookup_or_new P l id).prepared
      · rfl
      · exact absurd hv hp
    have hcom : (lookup_or_new P l id).committed = false :=
      committed_false_of P h0 hp'
    split
    · exact enginv_put h (ctxok_of_not_flags P (by simp [hp']) (by simp [hcom])) id
    · split
      · split
        · rename_i hq
          split
          · refine enginv_put h ?_ id
            exact ⟨fun _ => rfl, fun _ => hq⟩
          · split
            · refine enginv_put h ?_ id
              exact ⟨fun _ => rfl, fun _ => hq⟩
            · refine enginv_put h ?_ id
              exact ⟨fun _ => rfl, fun _ => hq⟩
        · exact enginv_put h
            (ctxok_of_not_flags P (by simp [hp']) (by simp [hcom])) id
      · exact enginv_put h
          (ctxok_of_not_flags P (by simp [hp']) (by simp [hcom])) id

/-- process_commit preserves the engine invariant. -/
theorem enginv_process_commit (P : Params) (l : Ctxs) (id x : String)
    (h : EngineInv P l) : EngineInv P (process_commit P l id x).1 := by
  simp only [process_commit]
  split
  · exact h
  · rename_i ctx0 hl
    have h0 : CtxOk P ctx0 := ctxok_of_lookup h hl
    split
    · exact enginv_put h h0 id
    · split
      · split
        · exact enginv_put h (ctxok_add_commit P h0 x) id
        · split
          · rename_i hq
            have hq' := hq
            simp only [Bool.and_eq_true] at hq'
            obtain ⟨hprep, hthr⟩ := hq'
            split
            · refine enginv_put h ?_ id
              exact ⟨fun _ => hprep, fun _ => h0.2 hprep⟩
            · refine enginv_put h ?_ id
              exact ⟨fun _ => hprep, fun _ => h0.2 hprep⟩
          · exact enginv_put h (ctxok_add_commit P h0 x) id
      · exact enginv_put h
          (ctxok_add_commit P (ctxok_add_commit P h0 x) P.nodeId) id

/-- handle_message preserves the engine invariant. -/
theorem enginv_handle (P : Params) (l : Ctxs) (m : RbMsg) (h : EngineInv P l) :
    EngineInv P (handle_message P l m).1 := by
  simp only [handle_message]
  split
  · exact h
  · split
    · exact enginv_process_pre_prepare P l m.id m.node_id _ h
    · exact enginv_process_prepare P l m.id m.node_id _ h
    · exact enginv_process_commit P l m.id m.node_id h
    · exact h

/-- Running any frame list preserves the engine invariant. -/
theorem enginv_run (P : Params) (msgs : List RbMsg) (l : Ctxs)
    (h : EngineInv P l) : EngineInv P (run_msgs P l msgs) := by
  induction msgs generalizing l with
  | nil => exact h
  | cons m rest ih => exact ih _ (enginv_handle P l m h)

/-- Every reachable contexts state satisfies the engine invariant. -/
theorem enginv_reachable (P : Params) (l : Ctxs) (h : Reachable P l) :
    EngineInv P l := by
  obtain ⟨msgs, rfl⟩ := h
  exact enginv_run P msgs [] (enginv_nil P)

/-- A Commit for an absent id fails with UnknownBroadcast and leaves the
store unchanged. -/
theorem commit_absent_unknown (P : Params) (l : Ctxs) (id origin : String)
    (h : Lru.lookup l id = none) :
    process_commit P l id origin =
      (l, .error (QuorumProtocolError.UnknownBroadcast id)) := by
  simp only [process_commit, h]

/-- The entry stored last is the most recently used one. -/
theorem Lru.head_put {κ α : Type} [DecidableEq κ] (l : Lru κ α) (k : κ) (v : α) :
    (Lru.put 1000 l k v).head? = some (k, v) := by
  rw [Lru.put]
  show (((k, v) :: Lru.eraseK l k).take (999 + 1)).head? = some (k, v)
  rw [List.take_succ_cons]
  rfl

/-- C1: in every contexts state reachable by any sequence of handle calls,
every stored context with committed = true also has prepared = true. -/
theorem C1_committed_implies_prepared (P : Params) (l : Ctxs)
    (h : Reachable P l) (k : String) (c : ConsensusContext)
    (hm : (k, c) ∈ l) (hcom : c.committed = true) : c.prepared = true :=
  ((enginv_reachable P l h).2 (k, c) hm).1 hcom

/-- Witness for C1: the happy-path run reaches a committed context, and the
theorem yields prepared = true for it. -/
theorem C1_witness :
    ("m1", exCtx) ∈ exRun ∧ exCtx.committed = true ∧ exCtx.prepared = true :=
  ⟨by decide, rfl,
   C1_committed_implies_prepared exP exRun ⟨exMsgs, rfl⟩ "m1" exCtx (by decide) rfl⟩

/-- C2 (amended): in every reachable contexts state, a prepared context has
enough prepare votes for the quorum predicate; this is the direction of the
biconditional that holds. -/
theorem C2_prepared_implies_quorum (P : Params) (l : Ctxs)
    (h : Reachable P l) (k : String) (c : ConsensusContext)
    (hm : (k, c) ∈ l) (hp : c.prepared = true) :
    P.prepareThreshold c.prepare.length = true :=
  ((enginv_reachable P l h).2 (k, c) hm).2 hp

/-- Witness for C2: the happy-path committed context is prepared and its
prepare votes meet the quorum predicate. -/
theorem C2_witness :
    ("m1", exCtx) ∈ exRun ∧ exCtx.prepared = true ∧
      exP.prepareThreshold exCtx.prepare.length = true :=
  ⟨by decide, rfl,
   C2_prepared_implies_quorum exP exRun ⟨exMsgs, rfl⟩ "m1" exCtx (by decide) rfl⟩

/-- Counterexample for C2 as stated: the biconditional fails, because the
local-vote broadcast path of process_prepare returns before the quorum check:
after one Prepare from b at node a the context holds two prepare votes, which
meets the quorum predicate of exP, yet prepared is still false. -/
theorem C2_counterexample :
    ¬ (∀ (P : Params) (l : Ctxs), Reachable P l →
        ∀ (k : String) (c : ConsensusContext), (k, c) ∈ l →
          (c.prepared = true ↔ P.prepareThreshold c.prepare.length = true)) := by
  intro hAll
  have hmem : ("m1", cexCtx) ∈ cexRun := by decide
  have hcl := (hAll exP cexRun ⟨[prep_frame "m1" "b" []], rfl⟩ "m1" cexCtx hmem).mpr
    (by decide)
  exact absurd hcl (by decide)

/-- C7 (amended): handling an Ack frame leaves the contexts state unchanged
but the frame is not accepted: it falls into the catch-all arm of
handle_message and yields UnknownBroadcast with the frame id. -/
theorem C7_ack_rejected_state_unchanged (P : Params) (l : Ctxs)
    (id nid : String) :
    handle_message P l
        { id := id, node_id := nid,
          reliable_broadcast := some ReliableBroadcast.Ack } =
      (l, .error (QuorumProtocolError.UnknownBroadcast id)) := rfl

/-- Counterexample for C7 as stated: an Ack is not accepted; handling it at a
concrete state returns an error rather than any ok response. -/
theorem C7_counterexample :
    ¬ (∀ (P : Params) (l : Ctxs) (m : RbMsg),
        m.reliable_broadcast = some ReliableBroadcast.Ack →
        ∃ r, (handle_message P l m).2 = Except.ok r) := by
  intro hAll
  obtain ⟨r, hr⟩ := hAll exP [] (ack_frame "m1" "b") rfl
  rw [show (handle_message exP [] (ack_frame "m1" "b")).2 =
      Except.error (QuorumProtocolError.UnknownBroadcast "m1") from rfl] at hr
  exact Except.noConfusion hr

/-- C8: a Commit frame whose id has no stored context fails with
UnknownBroadcast carrying that id and the store is unchanged, so no context
is created. -/
theorem C8_commit_unknown (P : Params) (l : Ctxs) (id origin : String)
    (h : Lru.lookup l id = none) :
    handle_message P l (commit_frame id origin) =
      (l, .error (QuorumProtocolError.UnknownBroadcast id)) := by
  simp only [handle_message, commit_frame]
  exact commit_absent_unknown P l id origin h

/-- Witness for C8: a commit for the never-seen id m9 on the empty store. -/
theorem C8_witness :
    handle_message exP [] (commit_frame "m9" "b") =
      ([], .error (QuorumProtocolError.UnknownBroadcast "m9")) :=
  C8_commit_unknown exP [] "m9" "b" rfl

/-- Counterexample for C3 as stated: process_prepare performs no membership
check, so the vote of z, which is neither in the peers snapshot nor the local
node, is recorded into prepare_votes of a reachable context. -/
theorem C3_counterexample :
    ¬ (∀ (P : Params) (l : Ctxs), Reachable P l →
        ∀ (k : String) (c : ConsensusContext), (k, c) ∈ l →
          ∀ v ∈ c.prepare, v ∈ c.peers ∨ v = c.local_address) := by
  intro hAll
  have hmem : ("m1", cexCtxNonMember) ∈ cexRunNonMember := by decide
  have hcl := hAll exP cexRunNonMember ⟨[prep_frame "m1" "z" []], rfl⟩ "m1"
    cexCtxNonMember hmem "z" (by decide)
  rcases hcl with hv | hv
  · exact absurd hv (by decide)
  · exact absurd hv (by decide)

/-- C3 (amended): no membership check is performed; handling a Prepare (on a
non-prepared context) or a Commit (on a non-committed context) records the
vote of any sender, member or not. -/
theorem C3_amended_any_vote_recorded (P : Params) :
    (∀ (l : Ctxs) (id x : String) (pl : List Nat) (c : ConsensusContext),
        Lru.lookup l id = some c → c.prepared = false →
        ∃ c', Lru.lookup (process_prepare P l id x pl).1 id = some c' ∧
          x ∈ c'.prepare) ∧
    (∀ (l : Ctxs) (id x : String) (c : ConsensusContext),
        Lru.lookup l id = some c → c.committed = false →
        ∃ c', Lru.lookup (process_commit P l id x).1 id = some c' ∧
          x ∈ c'.commit) := by
  constructor
  · intro l id x pl c hl hp
    have hln : lookup_or_new P l id = c := by simp [lookup_or_new, hl]
    simp only [process_prepare, hln]
    rw [if_neg (show ¬ (c.prepared = true) by simp [hp])]
    split
    · exact ⟨_, Lru.lookup_put_self (by norm_num) _ _ _, hsInsert_mem_self _ _⟩
    · split
      · split
        · split
          · exact ⟨_, Lru.lookup_put_self (by norm_num) _ _ _,
              hsInsert_mem_self _ _⟩
          · split
            · exact ⟨_, Lru.lookup_put_self (by norm_num) _ _ _,
                hsInsert_mem_self _ _⟩
            · exact ⟨_, Lru.lookup_put_self (by norm_num) _ _ _,
                hsInsert_mem_self _ _⟩
        · exact ⟨_, Lru.lookup_put_self (by norm_num) _ _ _,
            hsInsert_mem_self _ _⟩
      · exact ⟨_, Lru.lookup_put_self (by norm_num) _ _ _,
          hsInsert_mem_of_mem _ (hsInsert_mem_self _ _)⟩
  · intro l id x c hl hcom
    simp only [process_commit, hl]
    rw [if_neg (show ¬ (c.committed = true) by simp [hcom])]
    split
    · split
      · exact ⟨_, Lru.lookup_put_self (by norm_num) _ _ _, hsInsert_mem_self _ _⟩
      · split
        · split
          · exact ⟨_, Lru.lookup_put_self (by norm_num) _ _ _,
              hsInsert_mem_self _ _⟩
          · exact ⟨_, Lru.lookup_put_self (by norm_num) _ _ _,
              hsInsert_mem_self _ _⟩
        · exact ⟨_, Lru.lookup_put_self (by norm_num) _ _ _,
            hsInsert_mem_self _ _⟩
    · exact ⟨_, Lru.lookup_put_self (by norm_num) _ _ _,
        hsInsert_mem_of_mem _ (hsInsert_mem_self _ _)⟩

/-- Witness for C3 (amended): the non-member z is recorded by a Prepare and
by a Commit on the fresh m1 context. -/
theorem C3_witness :
    (∃ c', Lru.lookup (process_prepare exP [("m1", exPre)] "m1" "z" []).1 "m1"
        = some c' ∧ "z" ∈ c'.prepare) ∧
    (∃ c', Lru.lookup (process_commit exP [("m1", exPre)] "m1" "z").1 "m1"
        = some c' ∧ "z" ∈ c'.commit) :=
  ⟨(C3_amended_any_vote_recorded exP).1 [("m1", exPre)] "m1" "z" [] exPre rfl rfl,
   (C3_amended_any_vote_recorded exP).2 [("m1", exPre)] "m1" "z" exPre rfl rfl⟩

/-- Counterexample for C4 as stated: two PrePrepare frames for the same id
make the node broadcast PREPARE twice, because process_pre_prepare always
creates and stores a fresh context without checking for an existing one. -/
theorem C4_counterexample :
    ¬ (∀ (P : Params) (msgs : List RbMsg) (id : String),
        ((run_outputs P [] msgs).filter (is_prepare_bcast id)).length ≤ 1) := by
  intro hAll
  have hcl := hAll exP [pp_frame "m1" "x" [1], pp_frame "m1" "x" [1]] "m1"
  exact absurd hcl (by decide)

/-- C4 (amended): the local-vote check does block re-emission while the
context for the id persists: if the local node is already in prepare_votes a
further Prepare never yields an outbound PREPARE broadcast for that id, and
if it is already in commit_votes a further Commit never yields an outbound
COMMIT broadcast; only a repeated PrePrepare (or eviction), which replaces
the context, re-broadcasts. -/
theorem C4_amended_no_reemission (P : Params) :
    (∀ (l : Ctxs) (id x : String) (pl : List Nat) (c : ConsensusContext),
        Lru.lookup l id = some c → P.nodeId ∈ c.prepare →
        is_prepare_bcast id (process_prepare P l id x pl).2 = false) ∧
    (∀ (l : Ctxs) (id x : String) (c : ConsensusContext),
        Lru.lookup l id = some c → P.nodeId ∈ c.commit →
        is_commit_bcast id (process_commit P l id x).2 = false) := by
  constructor
  · intro l id x pl c hl hmem
    have hln : lookup_or_new P l id = c := by simp [lookup_or_new, hl]
    simp only [process_prepare, hln]
    split
    · simp [is_prepare_bcast, ack_reply, broadcast_reply]
    · split
      · simp [is_prepare_bcast]
      · rw [if_pos (show P.nodeId ∈ (c.add_prepare x).prepare from
          hsInsert_mem_of_mem x hmem)]
        split
        · split
          · simp [is_prepare_bcast]
          · split
            · simp [is_prepare_bcast, commit_reply, broadcast_reply]
            · simp [is_prepare_bcast, ack_reply, broadcast_reply]
        · simp [is_prepare_bcast, ack_reply, broadcast_reply]
  · intro l id x c hl hmem
    simp only [process_commit, hl]
    split
    · simp [is_commit_bcast, ack_reply, broadcast_reply]
    · rw [if_pos (show P.nodeId ∈ (c.add_commit x).commit from
        hsInsert_mem_of_mem x hmem)]
      split
      · simp [is_commit_bcast]
      · split
        · split
          · simp [is_commit_bcast]
          · simp [is_commit_bcast, ack_reply, broadcast_reply]
        · simp [is_commit_bcast, ack_reply, broadcast_reply]

/-- Witness for C4 (amended): on the committed m1 context, whose vote sets
contain the local node a, a further Prepare and a further Commit produce no
PREPARE and no COMMIT broadcast. -/
theorem C4_witness :
    is_prepare_bcast "m1" (process_prepare exP [("m1", exCtx)] "m1" "b" []).2
        = false ∧
    is_commit_bcast "m1" (process_commit exP [("m1", exCtx)] "m1" "b").2
        = false :=
  ⟨(C4_amended_no_reemission exP).1 [("m1", exCtx)] "m1" "b" [] exCtx rfl
      (by decide),
   (C4_amended_no_reemission exP).2 [("m1", exCtx)] "m1" "b" exCtx rfl
      (by decide)⟩

/-- Counterexample for C5 as stated: when the prepare hook rejects, the
engine does return CallbackError with no broadcast, but prepare_votes IS
mutated by that frame: the sender b, absent before, is recorded, because
add_prepare runs before the hook. -/
theorem C5_counterexample :
    (process_prepare exPbad [("m1", exPre)] "m1" "b" []).2 =
      .error (QuorumProtocolError.CallbackError "rejected") ∧
    "b" ∉ exPre.prepare ∧
    (∃ c', Lru.lookup (process_prepare exPbad [("m1", exPre)] "m1" "b" []).1 "m1"
        = some c' ∧ "b" ∈ c'.prepare) :=
  ⟨rfl, by decide, ⟨exPre.add_prepare "b", rfl, by decide⟩⟩

/-- C5 (amended): if the prepare hook fails on a Prepare frame for a
non-prepared context, the engine returns CallbackError and no broadcast, the
sender's vote having already been recorded before the hook ran; the context
stays un-prepared, so later prepares for the id are still processed. -/
theorem C5_prepare_hook_error (P : Params) (l : Ctxs) (id x : String)
    (pl : List Nat) (c : ConsensusContext) (e : String)
    (hl : Lru.lookup l id = some c) (hp : c.prepared = false)
    (he : P.callback.prepare id x pl (c.add_prepare x) = .error e) :
    process_prepare P l id x pl =
      (Lru.put 1000 l id (c.add_prepare x),
       .error (QuorumProtocolError.CallbackError e)) ∧
    (c.add_prepare x).prepared = false := by
  refine ⟨?_, by simp [hp]⟩
  have hln : lookup_or_new P l id = c := by simp [lookup_or_new, hl]
  simp only [process_prepare, hln]
  rw [if_neg (show ¬ (c.prepared = true) by simp [hp]), he]

/-- Witness for C5 (amended): the rejecting hook on the fresh m1 context. -/
theorem C5_witness :
    process_prepare exPbad [("m1", exPre)] "m1" "b" [] =
      (Lru.put 1000 [("m1", exPre)] "m1" (exPre.add_prepare "b"),
       .error (QuorumProtocolError.CallbackError "rejected")) ∧
    (exPre.add_prepare "b").prepared = false :=
  C5_prepare_hook_error exPbad [("m1", exPre)] "m1" "b" [] exPre "rejected"
    rfl rfl rfl

/-- Counterexample for C6 as stated: replaying a frame is not state
idempotent; replaying a Prepare that first took the local-vote broadcast path
then finds the local vote present, reaches the quorum check and flips
prepared from false to true. -/
theorem C6_counterexample :
    ¬ (∀ (P : Params) (l : Ctxs) (m : RbMsg), Reachable P l →
        (handle_message P (handle_message P l m).1 m).1 =
          (handle_message P l m).1) := by
  intro hAll
  have hcl := hAll exP [] (prep_frame "m1" "b" []) ⟨[], rfl⟩
  exact absurd hcl (by decide)

/-- C6 (amended): duplicate votes are idempotent set inserts, and replay is a
state no-op once the phase flag of the frame is set: with the context already
prepared a Prepare replay changes nothing, and with it already committed a
Commit replay changes nothing; a replay that completes a quorum can still
advance the phase flags, so unconditional replay idempotence fails. -/
theorem C6_phase_replay_idempotent (P : Params) (l : Ctxs) (id x : String)
    (pl : List Nat) (c : ConsensusContext)
    (hl : Lru.lookup l id = some c) :
    (c.prepared = true →
      (process_prepare P (process_prepare P l id x pl).1 id x pl).1 =
        (process_prepare P l id x pl).1) ∧
    (c.committed = true →
      (process_commit P (process_commit P l id x).1 id x).1 =
        (process_commit P l id x).1) := by
  constructor
  · intro hp
    have hln : lookup_or_new P l id = c := by simp [lookup_or_new, hl]
    have h1 : (process_prepare P l id x pl).1 = Lru.put 1000 l id c := by
      simp only [process_prepare, hln]
      rw [if_pos hp]
    have hl2 : Lru.lookup (Lru.put 1000 l id c) id = some c :=
      Lru.lookup_put_self (by norm_num) l id c
    have hln2 : lookup_or_new P (Lru.put 1000 l id c) id = c := by
      simp [lookup_or_new, hl2]
    rw [h1]
    simp only [process_prepare, hln2]
    rw [if_pos hp]
    exact Lru.put_put 1000 l id c c
  · intro hc
    have h1 : (process_commit P l id x).1 = Lru.put 1000 l id c := by
      simp only [process_commit, hl]
      rw [if_pos hc]
    have hl2 : Lru.lookup (Lru.put 1000 l id c) id = some c :=
      Lru.lookup_put_self (by norm_num) l id c
    rw [h1]
    simp only [process_commit, hl2]
    rw [if_pos hc]
    exact Lru.put_put 1000 l id c c

/-- Witness for C6 (amended): on the prepared and committed m1 context a
Prepare replay and a Commit replay are state no-ops. -/
theorem C6_witness :
    (process_prepare exP (process_prepare exP [("m1", exCtx)] "m1" "b" []).1
        "m1" "b" []).1 = (process_prepare exP [("m1", exCtx)] "m1" "b" []).1 ∧
    (process_commit exP (process_commit exP [("m1", exCtx)] "m1" "b").1
        "m1" "b").1 = (process_commit exP [("m1", exCtx)] "m1" "b").1 :=
  ⟨(C6_phase_replay_idempotent exP [("m1", exCtx)] "m1" "b" [] exCtx rfl).1 rfl,
   (C6_phase_replay_idempotent exP [("m1", exCtx)] "m1" "b" [] exCtx rfl).2 rfl⟩

/-- C9: the contexts store never exceeds 1000 entries on any reachable state;
putting a fresh id into a full store keeps 1000 entries, placing the new
entry at the most-recently-used end and dropping exactly the
least-recently-used entry; every process_prepare exit leaves the handled id
most recently used (lookups count as uses); and frames for an absent
(evicted) id are handled as for an unknown id. -/
theorem C9_capacity_lru (P : Params) :
    (∀ l : Ctxs, Reachable P l → l.length ≤ 1000) ∧
    (∀ (l : Ctxs) (k : String) (v : ConsensusContext),
        l.length = 1000 → Lru.lookup l k = none →
        Lru.put 1000 l k v = (k, v) :: l.take 999 ∧
          (Lru.put 1000 l k v).length = 1000) ∧
    (∀ (l : Ctxs) (id x : String) (pl : List Nat),
        ∃ c, ((process_prepare P l id x pl).1).head? = some (id, c)) ∧
    (∀ (l : Ctxs) (id origin : String), Lru.lookup l id = none →
        process_commit P l id origin =
          (l, .error (QuorumProtocolError.UnknownBroadcast id))) := by
  refine ⟨?_, ?_, ?_, ?_⟩
  · intro l h
    exact (enginv_reachable P l h).1
  · intro l k v hlen hnone
    constructor
    · rw [Lru.put, Lru.eraseK_of_lookup_none hnone]
      show ((k, v) :: l).take (999 + 1) = (k, v) :: l.take 999
      rw [List.take_succ_cons]
    · rw [Lru.put, Lru.eraseK_of_lookup_none hnone]
      simp [List.length_take, hlen]
  · intro l id x pl
    simp only [process_prepare]
    split
    · exact ⟨_, Lru.head_put l id _⟩
    · split
      · exact ⟨_, Lru.head_put l id _⟩
      · split
        · split
          · split
            · exact ⟨_, Lru.head_put l id _⟩
            · split
              · exact ⟨_, Lru.head_put l id _⟩
              · exact ⟨_, Lru.head_put l id _⟩
          · exact ⟨_, Lru.head_put l id _⟩
        · exact ⟨_, Lru.head_put l id _⟩
  · intro l id origin h
    exact commit_absent_unknown P l id origin h

/-- Looking a different key up in a replicated cache misses. -/
theorem lru_lookup_replicate_ne {α : Type} (n : Nat) (k k' : String) (v : α)
    (h : ¬ k = k') : Lru.lookup (List.replicate n (k, v)) k' = none := by
  induction n with
  | zero => rfl
  | succ m ih => simp [List.replicate_succ, Lru.lookup, h, ih]

/-- The full example cache has exactly 1000 entries. -/
theorem bigCtxs_length : bigCtxs.length = 1000 := by
  rw [bigCtxs]
  exact List.length_replicate 1000 _

/-- The fresh key y misses in the full example cache. -/
theorem bigCtxs_lookup_none : Lru.lookup bigCtxs "y" = none := by
  rw [bigCtxs]
  exact lru_lookup_replicate_ne 1000 "x" "y" _ (by decide)

/-- Witness for C9: the empty store is within capacity; inserting the fresh
id y into a full 1000-entry store keeps 1000 entries and drops the last;
a Prepare leaves its id most recently used; a Commit for an absent id is
handled as unknown. -/
theorem C9_witness :
    ([] : Ctxs).length ≤ 1000 ∧
    (Lru.put 1000 bigCtxs "y" exPre = ("y", exPre) :: bigCtxs.take 999 ∧
      (Lru.put 1000 bigCtxs "y" exPre).length = 1000) ∧
    (∃ c, ((process_prepare exP [] "m7" "b" []).1).head? = some ("m7", c)) ∧
    process_commit exP [] "m8" "b" =
      ([], .error (QuorumProtocolError.UnknownBroadcast "m8")) :=
  ⟨(C9_capacity_lru exP).1 [] ⟨[], rfl⟩,
   (C9_capacity_lru exP).2.1 bigCtxs "y" exPre bigCtxs_length bigCtxs_lookup_none,
   (C9_capacity_lru exP).2.2.1 [] "m7" "b" [],
   (C9_capacity_lru exP).2.2.2 [] "m8" "b" rfl⟩

/-- C10: on a freshly constructed Memberships the snapshot counter is 0, so
the subtraction current - 1 inside previous() underflows (the checked model
returns none for it and previous never reaches the snapshot lookup); after
one update the counter is 1, the subtraction is defined and previous finds
snapshot 0.  This exhibits the unguarded u64 underflow the claim rules
out. -/
theorem C10_previous_underflow (rnd : Nat) :
    (membership.Memberships.new rnd).current = 0 ∧
    membership.u64_sub_checked (membership.Memberships.new rnd).current 1
        = none ∧
    (membership.Memberships.new rnd).previous = none ∧
    ((membership.Memberships.new rnd).update
        (membership.Membership.new rnd [])).previous =
      some (some (membership.Membership.new rnd [])) := by
  refine ⟨rfl, rfl, rfl, rfl⟩
